import Mathlib

/-!
# Verification of the album-comparison app (`streamlit.py`)

Shallow embedding of the single-script Streamlit application that loads three
CSV tables (artist directory, rating events, album metadata), resolves two
user-selected display names to album ids, runs Welch's two-sample t-test on
the two rating partitions, derives a verdict, and renders two relabeled
charts.

Modelling conventions:
* CSV rows are Lean structures; the three loaded tables form `AppData`.
* Ratings and aggregate scores are `ℚ`.  Python float `NaN` results are
  modelled as `none` in `Option ℚ`; IEEE comparisons against `NaN` are
  `false`, which `floatGT` reproduces (`none` compares `false`).
* `scipy.stats.ttest_ind(xs, ys, equal_var=False)` (Welch) is embedded
  symbolically: the t statistic `t = (mean xs - mean ys) / sqrt(vx/nx + vy/ny)`
  is represented by the pair `num = mean xs - mean ys`,
  `den2 = vx/nx + vy/ny` (so `t = num / sqrt den2`), together with the
  Welch–Satterthwaite degrees of freedom `df`.  The result is `none`
  exactly when scipy produces a non-finite statistic: a partition with
  fewer than two samples (sample variance with `ddof=1` undefined, NaN),
  or a zero variance estimate `den2 = 0` (0/0 → NaN, or x/0 → ±inf whose
  p-value is NaN because `df` is then 0/0).
* The two-sided p-value `2 * sf(df, |t|)` of the Student t distribution is
  transcendental, so the survival function is a parameter
  `sf : ℚ → ℚ → ℚ → ℚ` receiving `(df, num^2, den2)` (which determine
  `df` and `|t|`); theorems that need facts about it take them as
  hypotheses, and witnesses instantiate a concrete `sfW`.
* A Streamlit rerun executes the script top to bottom in a fresh module
  namespace (only `st.cache_data` values persist), so `runScript` models one
  full execution from fresh, unbound locals: a `KeyError` caught at the
  name lookup leaves `album_1_id` / `album_2_id` unbound and the very next
  use raises an uncaught `NameError`; a missing metadata row raises an
  uncaught `IndexError` (`to_dict('records')[0]` of an empty selection).
-/

set_option autoImplicit false

namespace AlbumBattle

/-- One row of `rating_events.csv`: an individual vote.  `pd.to_datetime`
followed by `.dt.date` splits the timestamp into its date portion (`day`)
and a time-of-day remainder (`tod`), which we carry as already parsed. -/
structure RatingEvent where
  album_id : Int
  rating : ℚ
  day : Int
  tod : Nat
  deriving DecidableEq, Repr

/-- One row of `top_500_albums.csv` (album metadata). -/
structure MetaRow where
  album_id : Int
  name : String
  artist : String
  date : String
  rating : ℚ
  genres : String
  deriving DecidableEq, Repr

/-- The three loaded tables (`artist_to_id.csv`, `rating_events.csv`,
`top_500_albums.csv`), read once and cached. -/
structure AppData where
  directory : List (String × Int)
  ratingEvents : List RatingEvent
  albums : List MetaRow
  deriving DecidableEq, Repr

/-- `ids_and_albums.set_index('artist_name').to_dict()['album_id']`: a dict
built row by row, so a later row with the same `artist_name` overwrites an
earlier one (last-write-wins).  A missing key raises `KeyError`, i.e.
`none`. -/
def build_mapping (rows : List (String × Int)) : String → Option Int :=
  rows.foldl (fun m q => Function.update m q.1 (some q.2)) fun _ => none

/-- The `mapping_album_id` dict of `load_dropdown_data`. -/
def mapping_album_id (d : AppData) : String → Option Int :=
  build_mapping d.directory

/-- `all_ratings[all_ratings['album_id'] == album_id]`: one rating
partition. -/
def album_data (d : AppData) (album_id : Int) : List RatingEvent :=
  d.ratingEvents.filter fun e => decide (e.album_id = album_id)

/-- The `rating` column of one partition, the sample handed to
`stats.ttest_ind`. -/
def ratingsOf (d : AppData) (album_id : Int) : List ℚ :=
  (album_data d album_id).map (·.rating)

/-- `all_albums[all_albums['album_id'] == album_id].to_dict('records')[0]`:
the first metadata row matching the id; `none` models the uncaught
`IndexError` on an empty selection. -/
def load_albums_metadata (d : AppData) (album_id : Int) : Option MetaRow :=
  (d.albums.filter fun r => decide (r.album_id = album_id)).head?

/-- `numpy` sample mean of a list of ratings. -/
def sampleMean (xs : List ℚ) : ℚ :=
  xs.sum / (xs.length : ℚ)

/-- Sample variance with `ddof = 1`, as used by `ttest_ind`. -/
def sampleVar (xs : List ℚ) : ℚ :=
  ((xs.map fun x => (x - sampleMean xs) ^ 2).sum) / ((xs.length : ℚ) - 1)

/-- Symbolic value of the Welch statistic: `t = num / sqrt den2`, with
Welch–Satterthwaite degrees of freedom `df`.  In the defined case
`den2 > 0`, so `t = 0 ↔ num = 0` and swapping the samples negates `num`
while fixing `den2` and `df`. -/
structure WelchOut where
  num : ℚ
  den2 : ℚ
  df : ℚ
  deriving DecidableEq, Repr

/-- `stats.ttest_ind(xs, ys, equal_var=False)`.  `none` is the NaN /
non-finite outcome: a partition with fewer than two samples, or a zero
denominator (see the module docstring). -/
def ttest_ind (xs ys : List ℚ) : Option WelchOut :=
  if xs.length ≤ 1 ∨ ys.length ≤ 1 then none
  else
    let a := sampleVar xs / (xs.length : ℚ)
    let b := sampleVar ys / (ys.length : ℚ)
    if a + b = 0 then none
    else some
      { num := sampleMean xs - sampleMean ys
        den2 := a + b
        df := (a + b) ^ 2 / (a ^ 2 / ((xs.length : ℚ) - 1) + b ^ 2 / ((ys.length : ℚ) - 1)) }

/-- The Welch test on the two rating partitions of a selection
(line 88 of the script). -/
def welchPair (d : AppData) (a b : Int) : Option WelchOut :=
  ttest_ind (ratingsOf d a) (ratingsOf d b)

/-- Two-sided p-value `2 * sf(df, |t|)`; the Student survival function is
the parameter `sf`, applied to `(df, num ^ 2, den2)` which determine `df`
and `|t| = sqrt (num ^ 2 / den2)`.  NaN (`none`) propagates. -/
def p_value (sf : ℚ → ℚ → ℚ → ℚ) (w : Option WelchOut) : Option ℚ :=
  w.map fun o => 2 * sf o.df (o.num ^ 2) o.den2

/-- p-value of a selection. -/
def pvaluePair (sf : ℚ → ℚ → ℚ → ℚ) (d : AppData) (a b : Int) : Option ℚ :=
  p_value sf (welchPair d a b)

/-- Python `p_value > c` where `p_value` may be NaN: any comparison with
NaN is `False`. -/
def floatGT (p : Option ℚ) (c : ℚ) : Bool :=
  match p with
  | none => false
  | some q => decide (c < q)

/-- Line 91: `h0_holds = p_value > 0.05`. -/
def h0_holds (p : Option ℚ) : Bool :=
  floatGT p (1 / 20)

/-- The verdict headline rendered by lines 92–100. -/
inductive Verdict where
  | indeterminate
  | album1Wins
  | album2Wins
  deriving DecidableEq, Repr

/-- Lines 92–100: the verdict branch on `h0_holds` and the two aggregate
metadata ratings. -/
def verdictOf (p : Option ℚ) (r1 r2 : ℚ) : Verdict :=
  if h0_holds p then .indeterminate
  else if r1 = r2 then .indeterminate
  else if r2 < r1 then .album1Wins
  else .album2Wins

/-- A concrete stand-in for the Student survival function used by
witnesses; it satisfies the facts the theorems assume (`sf df 0 den2 = 1/2`
and `0 ≤ sf ≤ 1/2`). -/
def sfW : ℚ → ℚ → ℚ → ℚ :=
  fun _ num2 _ => if num2 = 0 then 1 / 2 else 1 / 4

/-- Line 112: `pd.concat([album_1_data, album_2_data])`. -/
def combined_data (d : AppData) (a b : Int) : List RatingEvent :=
  album_data d a ++ album_data d b

/-- Grouping key of line 138: `(date, album_id)`. -/
abbrev GKey := Int × Int

/-- The key of one rating event: date portion of its timestamp, and its
album id. -/
def keyOf (e : RatingEvent) : GKey :=
  (e.day, e.album_id)

/-- One step of grouped aggregation: fold a rating into the running
`(sum, count)` of its key, appending a fresh group when the key is new. -/
def upsert (k : GKey) (r : ℚ) : List (GKey × ℚ × Nat) → List (GKey × ℚ × Nat)
  | [] => [(k, r, 1)]
  | (k', s, c) :: rest =>
      if k' = k then (k', s + r, c + 1) :: rest
      else (k', s, c) :: upsert k r rest

/-- The grouped `(sum, count)` table underlying
`groupby(['date','album_id'])`. -/
def groupAgg (es : List RatingEvent) : List (GKey × ℚ × Nat) :=
  es.foldl (fun acc e => upsert (keyOf e) e.rating acc) []

/-- Line 138: `groupby(['date','album_id']).agg(rating_mean=('rating','mean'))`
— one `(key, mean rating)` row per group. -/
def mean_over_time (es : List RatingEvent) : List (GKey × ℚ) :=
  (groupAgg es).map fun x => (x.1, x.2.1 / (x.2.2 : ℚ))

/-- Row lookup by group key. -/
def lookupKey {α : Type} (k : GKey) (l : List (GKey × α)) : Option α :=
  (l.find? fun x => decide (x.1 = k)).map (·.2)

/-- Replacement of the leftmost occurrence first, non-overlapping, over
character lists; the fuel argument (instantiated with the input length)
only makes the recursion structural. -/
def replaceFuel (pat rep : List Char) : Nat → List Char → List Char
  | 0, l => l
  | _ + 1, [] => []
  | n + 1, c :: rest =>
      if pat.isPrefixOf (c :: rest) then
        rep ++ replaceFuel pat rep n ((c :: rest).drop pat.length)
      else c :: replaceFuel pat rep n rest

/-- Python `s.replace(pat, rep)`: every non-overlapping occurrence of
`pat` in `s`, scanned left to right, is replaced by `rep` (for the
non-empty patterns used here). -/
def str_replace (s pat rep : String) : String :=
  if pat.data = [] then s
  else ⟨replaceFuel pat.data rep.data s.data.length s.data⟩

/-- A plotly trace as produced by `px.histogram` / `px.line` with
`color='album_id'`: named after the raw album id, with the id inside the
hover text. -/
structure RawTrace where
  name : Int
  hovertemplate : String
  deriving DecidableEq, Repr

/-- A trace after `for_each_trace` relabelling: display-name `name` and
`legendgroup`, hover text with the raw id replaced. -/
structure Trace where
  name : String
  legendgroup : String
  hovertemplate : String
  deriving DecidableEq, Repr

/-- Distinct album ids of the plotted rows, in order of appearance: one
series per id. -/
def distinctAlbumIds (ids : List Int) : List Int :=
  ids.dedup

/-- Lines 114–124: `px.histogram(combined, x='rating', color='album_id')` —
one trace per distinct album id of the combined data. -/
def histogram_fig (es : List RatingEvent) : List RawTrace :=
  (distinctAlbumIds (es.map (·.album_id))).map fun i =>
    { name := i, hovertemplate := "Album=" ++ toString i ++ "<br>Rating=%x<br>count=%y" }

/-- Lines 139–150: `px.line(mean_over_time, x='date', y='rating_mean',
color='album_id')` — one trace per distinct album id among the group
rows. -/
def mean_over_time_fig (es : List RatingEvent) : List RawTrace :=
  (distinctAlbumIds ((mean_over_time es).map fun r => r.1.2)).map fun i =>
    { name := i, hovertemplate := "Album=" ++ toString i ++ "<br>Date=%x<br>Rating (mean)=%y" }

/-- Line 125: `name_mapping = {album_1_metadata['album_id']: ...name,
album_2_metadata['album_id']: ...name}` — on a duplicate key the second
entry wins, so the second id is checked first. -/
def name_mapping (m1 m2 : MetaRow) : Int → Option String :=
  fun i =>
    if i = m2.album_id then some m2.name
    else if i = m1.album_id then some m1.name
    else none

/-- Lines 127–130: `t.update(name=..., legendgroup=...,
hovertemplate=t.hovertemplate.replace(t.name, name_mapping[t.name]))`.
`none` models the uncaught `KeyError` when the id is not a key. -/
def relabelTrace (nm : Int → Option String) (t : RawTrace) : Option Trace :=
  (nm t.name).map fun n =>
    { name := n, legendgroup := n
      hovertemplate := str_replace t.hovertemplate (toString t.name) n }

/-- `fig.for_each_trace(lambda t: t.update(...))` over all traces of a
figure. -/
def for_each_trace (nm : Int → Option String) (ts : List RawTrace) : Option (List Trace) :=
  ts.mapM (relabelTrace nm)

/-- How one full top-to-bottom run of the script can abort: `NameError`
(using `album_1_id`/`album_2_id` after the caught `KeyError` left them
unbound), `IndexError` (`[0]` on an empty metadata selection), `KeyError`
(`name_mapping[t.name]` inside `for_each_trace`). -/
inductive RunError where
  | nameError
  | indexError
  | keyError
  deriving DecidableEq, Repr

/-- Everything a successful run renders past the selection widgets. -/
structure Output where
  meta1 : MetaRow
  meta2 : MetaRow
  t_stat : Option WelchOut
  p_val : Option ℚ
  verdict : Verdict
  histTraces : List Trace
  lineTraces : List Trace
  deriving Repr

/-- One Streamlit rerun of the script (lines 40–157) on fresh locals: the
Boolean records whether the `except KeyError` retry message was written.
A failed name lookup writes the message and then aborts with `NameError`
at line 69 (the ids are unbound in the fresh namespace); a missing
metadata row aborts with `IndexError`; a relabelling lookup failure aborts
with `KeyError`. -/
def runScript (sf : ℚ → ℚ → ℚ → ℚ) (d : AppData) (n1 n2 : String) :
    Bool × Except RunError Output :=
  match mapping_album_id d n1, mapping_album_id d n2 with
  | some a, some b =>
    match load_albums_metadata d a, load_albums_metadata d b with
    | some m1, some m2 =>
      let w := welchPair d a b
      let p := p_value sf w
      let v := verdictOf p m1.rating m2.rating
      let es := combined_data d a b
      match for_each_trace (name_mapping m1 m2) (histogram_fig es),
            for_each_trace (name_mapping m1 m2) (mean_over_time_fig es) with
      | some hs, some ls =>
          (false, .ok { meta1 := m1, meta2 := m2, t_stat := w, p_val := p,
                        verdict := v, histTraces := hs, lineTraces := ls })
      | _, _ => (false, .error .keyError)
    | _, _ => (false, .error .indexError)
  | _, _ => (true, .error .nameError)

/-- The property `for_each_trace` establishes for one trace: the series
name is the display name the mapping assigns to the raw album id, the
legend group is that same display name, and the hover text is the original
hover text with every occurrence of the raw id replaced by the display
name. -/
def relabeled (nm : Int → Option String) (rt : RawTrace) (t : Trace) : Prop :=
  nm rt.name = some t.name ∧ t.legendgroup = t.name ∧
  t.hovertemplate = str_replace rt.hovertemplate (toString rt.name) t.name

/-- Negate the symbolic Welch statistic (`t = num / sqrt den2`, so negating
`num` negates `t`). -/
def negNum (o : WelchOut) : WelchOut :=
  { o with num := -o.num }

/-- The `(sum, count)` of the ratings of the events with group key `k`:
the specification-side aggregate of one `groupby` cell. -/
def sumCount (k : GKey) (es : List RatingEvent) : ℚ × Nat :=
  (((es.filter fun e => decide (keyOf e = k)).map (·.rating)).sum,
   (es.filter fun e => decide (keyOf e = k)).length)

/-! ### Concrete fixture data for witnesses and counterexamples -/

/-- A well-behaved dataset: two albums, four votes each, both partitions
with nonzero variance. -/
def dW : AppData :=
  { directory := [("A - X", 1), ("B - Y", 2)]
    ratingEvents :=
      [ ⟨1, 5, 10, 0⟩, ⟨1, 4, 10, 5⟩, ⟨1, 5, 11, 0⟩, ⟨1, 4, 11, 5⟩
      , ⟨2, 1, 10, 1⟩, ⟨2, 2, 10, 6⟩, ⟨2, 1, 11, 1⟩, ⟨2, 2, 11, 6⟩ ]
    albums :=
      [ ⟨1, "X", "A", "2020", 5, "rock"⟩, ⟨2, "Y", "B", "2020", 1, "pop"⟩ ] }

/-- The first metadata row of `dW`. -/
def mW1 : MetaRow := ⟨1, "X", "A", "2020", 5, "rock"⟩

/-- The second metadata row of `dW`. -/
def mW2 : MetaRow := ⟨2, "Y", "B", "2020", 1, "pop"⟩

/-- Degenerate dataset: album 2 has metadata (aggregate rating 1 ≠ 5) but
no rating events at all, so its partition is empty and the t-test is
NaN. -/
def dCE2 : AppData :=
  { directory := [("A - X", 1), ("B - Y", 2)]
    ratingEvents := [ ⟨1, 5, 10, 0⟩, ⟨1, 4, 10, 5⟩ ]
    albums :=
      [ ⟨1, "X", "A", "2020", 5, "rock"⟩, ⟨2, "Y", "B", "2020", 1, "pop"⟩ ] }

/-- The output of the run of `dCE2` in `C2_counterexample`. -/
def outCE2 : Output :=
  { meta1 := ⟨1, "X", "A", "2020", 5, "rock"⟩
    meta2 := ⟨2, "Y", "B", "2020", 1, "pop"⟩
    t_stat := none
    p_val := none
    verdict := .album1Wins
    histTraces := [⟨"X", "X", "Album=X<br>Rating=%x<br>count=%y"⟩]
    lineTraces := [⟨"X", "X", "Album=X<br>Date=%x<br>Rating (mean)=%y"⟩] }

/-- Dataset whose directory does not contain the selected display name. -/
def dCE3 : AppData :=
  { directory := [("A - X", 1)], ratingEvents := [], albums := [] }

/-- Dataset where album 1's two votes are identical: zero sample variance,
so the self-comparison t-test is NaN rather than `(0, 1.0)`. -/
def dC4 : AppData :=
  { directory := [("A - X", 1)]
    ratingEvents := [ ⟨1, 5, 10, 0⟩, ⟨1, 5, 11, 0⟩ ]
    albums := [ ⟨1, "X", "A", "2020", 5, "rock"⟩ ] }

/-- Dataset where both album ids have metadata rows but only a single vote
each, so the t-test (sample variance with `ddof = 1`) is NaN. -/
def dC6 : AppData :=
  { directory := [("A - X", 1), ("B - Y", 2)]
    ratingEvents := [ ⟨1, 5, 10, 0⟩, ⟨2, 3, 10, 0⟩ ]
    albums :=
      [ ⟨1, "X", "A", "2020", 5, "rock"⟩, ⟨2, "Y", "B", "2020", 1, "pop"⟩ ] }

/-- Dataset for C10: the directory maps both names, but album 3 has no
metadata row; album 1 moreover has two metadata rows sharing its id. -/
def dC10 : AppData :=
  { directory := [("A - X", 1), ("C - Z", 3)]
    ratingEvents := [ ⟨1, 5, 10, 0⟩ ]
    albums :=
      [ ⟨1, "X", "A", "2020", 5, "rock"⟩, ⟨1, "Xbis", "A", "2021", 4, "rock"⟩ ] }

/-! ### Helper lemmas -/

theorem sampleVar_nonneg (xs : List ℚ) (h : 2 ≤ xs.length) : 0 ≤ sampleVar xs := by
  unfold sampleVar
  apply div_nonneg
  · apply List.sum_nonneg
    intro x hx
    simp only [List.mem_map] at hx
    obtain ⟨y, -, rfl⟩ := hx
    positivity
  · have h2 : (2 : ℚ) ≤ (xs.length : ℚ) := by exact_mod_cast h
    linarith

theorem head?_filter {α : Type} (p : α → Bool) (l : List α) :
    (l.filter p).head? = l.find? p := by
  induction l with
  | nil => rfl
  | cons x xs ih =>
      by_cases h : p x
      · simp [List.filter_cons, List.find?_cons, h]
      · simp only [Bool.not_eq_true] at h
        simp [List.filter_cons, List.find?_cons, h, ih]

theorem p_value_negNum (sf : ℚ → ℚ → ℚ → ℚ) (w : Option WelchOut) :
    p_value sf (w.map negNum) = p_value sf w := by
  cases w with
  | none => rfl
  | some o => simp [p_value, negNum]

/-! ### Claim theorems -/

theorem verdictOf_some (q r1 r2 : ℚ) :
    verdictOf (some q) r1 r2 =
      if 1 / 20 < q then .indeterminate
      else if r1 = r2 then .indeterminate
      else if r2 < r1 then .album1Wins
      else .album2Wins := by
  unfold verdictOf h0_holds floatGT
  by_cases h : 1 / 20 < q <;> simp [h]

/-- C1: for a (non-NaN) p-value and the two aggregate metadata ratings,
the verdict of lines 91–100 is: indeterminate whenever `p_value > 0.05`;
indeterminate when `p_value ≤ 0.05` but the aggregates are exactly equal;
`album_1_wins` when `p_value ≤ 0.05` and album 1's aggregate exceeds
album 2's; `album_2_wins` otherwise. -/
theorem C1_verdict_policy (sf : ℚ → ℚ → ℚ → ℚ) (d : AppData) (i j : Int)
    (m1 m2 : MetaRow) (q : ℚ) (hp : pvaluePair sf d i j = some q) :
    (1 / 20 < q →
      verdictOf (pvaluePair sf d i j) m1.rating m2.rating = .indeterminate) ∧
    (q ≤ 1 / 20 → m1.rating = m2.rating →
      verdictOf (pvaluePair sf d i j) m1.rating m2.rating = .indeterminate) ∧
    (q ≤ 1 / 20 → m2.rating < m1.rating →
      verdictOf (pvaluePair sf d i j) m1.rating m2.rating = .album1Wins) ∧
    (q ≤ 1 / 20 → m1.rating ≠ m2.rating → ¬ m2.rating < m1.rating →
      verdictOf (pvaluePair sf d i j) m1.rating m2.rating = .album2Wins) := by
  rw [hp]
  refine ⟨fun h => ?_, fun h he => ?_, fun h hgt => ?_, fun h hne hngt => ?_⟩
  · rw [verdictOf_some, if_pos h]
  · rw [verdictOf_some, if_neg (not_lt.mpr h), if_pos he]
  · rw [verdictOf_some, if_neg (not_lt.mpr h), if_neg (ne_of_gt hgt), if_pos hgt]
  · rw [verdictOf_some, if_neg (not_lt.mpr h), if_neg hne, if_neg hngt]

/-- C1 witness: on `dW` the p-value is `1/2 > 0.05` and the verdict is
indeterminate. -/
theorem C1_verdict_policy_witness :
    pvaluePair sfW dW 1 2 = some (1 / 2) ∧ (1 / 20 : ℚ) < 1 / 2 ∧
    verdictOf (pvaluePair sfW dW 1 2) mW1.rating mW2.rating = .indeterminate := by
  have hp : pvaluePair sfW dW 1 2 = some (1 / 2) := by
    norm_num [pvaluePair, p_value, welchPair, ttest_ind, ratingsOf, album_data,
      dW, sampleMean, sampleVar, sfW]
  exact ⟨hp, by norm_num,
    (C1_verdict_policy sfW dW 1 2 mW1 mW2 (1 / 2) hp).1 (by norm_num)⟩

/-- C2 counterexample: on `dCE2` album 2's partition is empty, so the
t-test is NaN — and the run does *not* land in the indeterminate branch:
`NaN > 0.05` is false, so `h0_holds` is false and the else-branch compares
the aggregate ratings (5 vs 1), declaring album 1 the winner. -/
theorem C2_counterexample :
    welchPair dCE2 1 2 = none ∧
    (runScript sfW dCE2 "A - X" "B - Y").2 = Except.ok outCE2 ∧
    outCE2.p_val = none ∧
    outCE2.verdict = Verdict.album1Wins ∧
    outCE2.verdict ≠ Verdict.indeterminate :=
  ⟨by decide, rfl, rfl, rfl, by decide⟩

/-- C2 amended: when the t-test is NaN (degenerate partitions), the NaN
p-value *fails* the comparison `p_value > 0.05`, so `h0_holds` is false
and the code reaches the aggregate-ratings branch: the verdict is
indeterminate only when the two aggregate metadata ratings tie, and
otherwise names a winner. -/
theorem C2_nan_goes_to_else_branch (sf : ℚ → ℚ → ℚ → ℚ) (d : AppData)
    (i j : Int) (r1 r2 : ℚ) (h : welchPair d i j = none) :
    h0_holds (pvaluePair sf d i j) = false ∧
    (verdictOf (pvaluePair sf d i j) r1 r2 = .indeterminate ↔ r1 = r2) := by
  have hp : pvaluePair sf d i j = none := by simp [pvaluePair, p_value, h]
  rw [hp]
  refine ⟨rfl, ?_⟩
  by_cases he : r1 = r2
  · simp [verdictOf, h0_holds, floatGT, he]
  · by_cases hgt : r2 < r1 <;>
      simp [verdictOf, h0_holds, floatGT, he, hgt]

/-- C2 amended, witness: on `dCE2` (empty partition, aggregates 5 ≠ 1)
`h0_holds` is false and the verdict is not indeterminate. -/
theorem C2_nan_goes_to_else_branch_witness :
    welchPair dCE2 1 2 = none ∧
    h0_holds (pvaluePair sfW dCE2 1 2) = false ∧
    (verdictOf (pvaluePair sfW dCE2 1 2) 5 1 = .indeterminate ↔ (5 : ℚ) = 1) :=
  ⟨by decide, (C2_nan_goes_to_else_branch sfW dCE2 1 2 5 1 (by decide)).1,
    (C2_nan_goes_to_else_branch sfW dCE2 1 2 5 1 (by decide)).2⟩

/-- C3 counterexample: with `dCE3` the selected name is not in the
mapping.  The `except KeyError` branch does write the retry message
(first component `true`), but the run then aborts with an uncaught
`NameError` — `album_1_id`/`album_2_id` are unbound in the fresh rerun
namespace — so the rest of the pipeline does *not* proceed. -/
theorem C3_counterexample :
    (runScript sfW dCE3 "B - Y" "A - X").1 = true ∧
    (runScript sfW dCE3 "B - Y" "A - X").2 = Except.error RunError.nameError :=
  ⟨rfl, rfl⟩

/-- C3 amended: a failed display-name lookup is caught locally and the
retry message is shown, but because each Streamlit rerun executes the
script in a fresh namespace, the album-id variables are unbound and the
very next use of them (line 69) raises an uncaught `NameError`: the run
halts instead of proceeding with identifiers from a prior interaction. -/
theorem C3_lookup_failure_halts (sf : ℚ → ℚ → ℚ → ℚ) (d : AppData)
    (n1 n2 : String)
    (h : mapping_album_id d n1 = none ∨ mapping_album_id d n2 = none) :
    runScript sf d n1 n2 = (true, Except.error RunError.nameError) := by
  cases hx : mapping_album_id d n1 with
  | none => simp [runScript, hx]
  | some a =>
      cases hy : mapping_album_id d n2 with
      | none => simp [runScript, hx, hy]
      | some b => simp_all

/-- C3 amended, witness. -/
theorem C3_lookup_failure_halts_witness :
    mapping_album_id dCE3 "B - Y" = none ∧
    runScript sfW dCE3 "B - Y" "A - X" = (true, Except.error RunError.nameError) :=
  ⟨by decide, C3_lookup_failure_halts sfW dCE3 "B - Y" "A - X" (Or.inl (by decide))⟩

/-- C5: swapping the two albums negates the Welch statistic
(`t = num / sqrt den2`, and the swap negates `num` while fixing `den2` and
the degrees of freedom) and leaves the two-sided p-value unchanged;
the NaN cases coincide as well. -/
theorem C5_swap_symmetry (sf : ℚ → ℚ → ℚ → ℚ) (d : AppData) (i j : Int) :
    welchPair d j i = (welchPair d i j).map negNum ∧
    pvaluePair sf d j i = pvaluePair sf d i j := by
  have h1 : welchPair d j i = (welchPair d i j).map negNum := by
    unfold welchPair ttest_ind
    by_cases hl : (ratingsOf d i).length ≤ 1 ∨ (ratingsOf d j).length ≤ 1
    · rw [if_pos hl.symm, if_pos hl]
      rfl
    · rw [if_neg (fun hc => hl hc.symm), if_neg hl]
      simp only []
      by_cases hz :
          sampleVar (ratingsOf d i) / ((ratingsOf d i).length : ℚ) +
            sampleVar (ratingsOf d j) / ((ratingsOf d j).length : ℚ) = 0
      · rw [if_pos hz, if_pos (by rw [add_comm]; exact hz)]
        rfl
      · rw [if_neg hz, if_neg (fun hc => hz (by rw [add_comm]; exact hc))]
        simp only [Option.map_some', negNum, Option.some.injEq, WelchOut.mk.injEq]
        refine ⟨by ring, by ring, by ring⟩
  refine ⟨h1, ?_⟩
  unfold pvaluePair
  rw [h1, p_value_negNum]

/-- C7: the selection resolver's dict (`set_index(...).to_dict()`) maps a
display name to the album id of its *last* occurrence in source order
(last-write-wins on duplicates), and holds an entry exactly for the names
that occur in the directory. -/
theorem C7_last_write_wins (rows : List (String × Int)) (name : String) :
    build_mapping rows name =
      (rows.reverse.find? fun q => q.1 == name).map Prod.snd ∧
    ((build_mapping rows name).isSome ↔ name ∈ rows.map Prod.fst) := by
  have h1 : build_mapping rows name =
      (rows.reverse.find? fun q => q.1 == name).map Prod.snd := by
    induction rows using List.reverseRecOn with
    | nil => rfl
    | append_singleton rs p ih =>
        have hfold : build_mapping (rs ++ [p]) name =
            Function.update (build_mapping rs) p.1 (some p.2) name := by
          simp [build_mapping, List.foldl_append]
        rw [hfold, Function.update_apply, List.reverse_append,
          List.reverse_singleton, List.singleton_append]
        by_cases h : name = p.1
        · rw [if_pos h, List.find?_cons_of_pos _ (by simp [h])]
          rfl
        · rw [if_neg h, List.find?_cons_of_neg _ (by simp [Ne.symm h])]
          exact ih
  have hiso : ∀ (o : Option (String × Int)), (o.map Prod.snd).isSome = o.isSome := by
    intro o
    cases o <;> rfl
  refine ⟨h1, ?_⟩
  rw [h1, hiso, List.find?_isSome]
  constructor
  · rintro ⟨x, hx, hb⟩
    rw [List.mem_reverse] at hx
    have hxn : x.1 = name := by simpa using hb
    exact hxn ▸ List.mem_map_of_mem Prod.fst hx
  · intro hn
    obtain ⟨x, hx, hxn⟩ := List.mem_map.mp hn
    exact ⟨x, List.mem_reverse.mpr hx, by simp [hxn]⟩

/-- C4 counterexample: on `dC4` album 1's ratings are `[5, 5]` — comparing
the album to itself gives two identical *constant* partitions, the Welch
denominator is 0, and scipy returns NaN, not `t = 0, p = 1.0`. -/
theorem C4_counterexample :
    welchPair dC4 1 1 = none ∧ pvaluePair sfW dC4 1 1 = none ∧
    pvaluePair sfW dC4 1 1 ≠ some 1 := by
  have hw : welchPair dC4 1 1 = none := by
    norm_num [welchPair, ttest_ind, ratingsOf, album_data, dC4, sampleMean, sampleVar]
  have hp : pvaluePair sfW dC4 1 1 = none := by
    simp [pvaluePair, p_value, hw]
  exact ⟨hw, hp, by simp [hp]⟩

/-- C4 amended: comparing an album to itself yields `t = 0`
(`num = 0` in the symbolic representation `t = num / sqrt den2`) and
`p_value = 1` *provided* the partition has at least two ratings and
nonzero sample variance; for fewer than two ratings or a constant
partition the t-test is NaN instead.  `hsf` is the Student-distribution
fact `2 · sf(df, 0) = 1` (the two-sided p-value of `t = 0`). -/
theorem C4_self_comparison (sf : ℚ → ℚ → ℚ → ℚ) (d : AppData) (i : Int)
    (hn : 2 ≤ (ratingsOf d i).length) (hv : sampleVar (ratingsOf d i) ≠ 0)
    (hsf : ∀ df den2 : ℚ, 0 < den2 → sf df 0 den2 = 1 / 2) :
    ∃ o, welchPair d i i = some o ∧ o.num = 0 ∧ 0 < o.den2 ∧
      pvaluePair sf d i i = some 1 := by
  have hlen : ¬ ((ratingsOf d i).length ≤ 1 ∨ (ratingsOf d i).length ≤ 1) := by
    omega
  have hnq : (0 : ℚ) < ((ratingsOf d i).length : ℚ) := by
    have : (2 : ℚ) ≤ ((ratingsOf d i).length : ℚ) := by exact_mod_cast hn
    linarith
  have hvpos : 0 < sampleVar (ratingsOf d i) :=
    lt_of_le_of_ne (sampleVar_nonneg _ hn) (Ne.symm hv)
  have hapos : 0 < sampleVar (ratingsOf d i) / ((ratingsOf d i).length : ℚ) :=
    div_pos hvpos hnq
  have hz : ¬ (sampleVar (ratingsOf d i) / ((ratingsOf d i).length : ℚ) +
      sampleVar (ratingsOf d i) / ((ratingsOf d i).length : ℚ) = 0) := by
    positivity
  have hw : welchPair d i i = some
      { num := sampleMean (ratingsOf d i) - sampleMean (ratingsOf d i)
        den2 := sampleVar (ratingsOf d i) / ((ratingsOf d i).length : ℚ) +
          sampleVar (ratingsOf d i) / ((ratingsOf d i).length : ℚ)
        df := (sampleVar (ratingsOf d i) / ((ratingsOf d i).length : ℚ) +
            sampleVar (ratingsOf d i) / ((ratingsOf d i).length : ℚ)) ^ 2 /
          ((sampleVar (ratingsOf d i) / ((ratingsOf d i).length : ℚ)) ^ 2 /
              (((ratingsOf d i).length : ℚ) - 1) +
            (sampleVar (ratingsOf d i) / ((ratingsOf d i).length : ℚ)) ^ 2 /
              (((ratingsOf d i).length : ℚ) - 1)) } := by
    unfold welchPair ttest_ind
    rw [if_neg hlen, if_neg hz]
  refine ⟨_, hw, by simp, by dsimp only; linarith [hapos], ?_⟩
  unfold pvaluePair
  rw [hw]
  have hden : (0 : ℚ) < sampleVar (ratingsOf d i) / ((ratingsOf d i).length : ℚ) +
      sampleVar (ratingsOf d i) / ((ratingsOf d i).length : ℚ) := by positivity
  simp only [p_value, Option.map_some', sub_self]
  rw [show ((0 : ℚ) ^ 2) = 0 by norm_num, hsf _ _ hden]
  norm_num

/-- C4 amended, witness: album 1 of `dW` has four votes `[5,4,5,4]` with
nonzero variance, and the self-comparison indeed gives `num = 0` and
`p = 1`. -/
theorem C4_self_comparison_witness :
    2 ≤ (ratingsOf dW 1).length ∧ sampleVar (ratingsOf dW 1) ≠ 0 ∧
    ∃ o, welchPair dW 1 1 = some o ∧ o.num = 0 ∧ 0 < o.den2 ∧
      pvaluePair sfW dW 1 1 = some 1 := by
  have hv : sampleVar (ratingsOf dW 1) ≠ 0 := by
    norm_num [ratingsOf, album_data, dW, sampleMean, sampleVar]
  exact ⟨by decide, hv,
    C4_self_comparison sfW dW 1 (by decide) hv
      (fun df den2 h => by simp [sfW])⟩

/-- C6 counterexample: both album ids of `dC6` have metadata rows, yet
each has only a single vote, so the t-test — and with it the returned
p-value — is NaN, which lies in no interval at all, in particular not in
`[0, 1]`. -/
theorem C6_counterexample :
    (load_albums_metadata dC6 1).isSome ∧ (load_albums_metadata dC6 2).isSome ∧
    pvaluePair sfW dC6 1 2 = none := by
  refine ⟨by decide, by decide, by decide⟩

/-- C6 amended: whenever the Welch statistic is defined (both partitions
have at least two votes and the pooled variance term is nonzero) the
returned p-value `2 · sf(df, |t|)` lies in `[0, 1]`; for degenerate
partitions it is NaN instead.  `h0`/`h1` are the survival-function range
facts `0 ≤ sf ≤ 1/2`. -/
theorem C6_pvalue_range (sf : ℚ → ℚ → ℚ → ℚ) (d : AppData) (i j : Int)
    (o : WelchOut) (hw : welchPair d i j = some o)
    (h0 : ∀ df n2 d2 : ℚ, 0 ≤ sf df n2 d2)
    (h1 : ∀ df n2 d2 : ℚ, sf df n2 d2 ≤ 1 / 2) :
    ∃ q, pvaluePair sf d i j = some q ∧ 0 ≤ q ∧ q ≤ 1 := by
  refine ⟨2 * sf o.df (o.num ^ 2) o.den2, ?_, ?_, ?_⟩
  · simp [pvaluePair, p_value, hw]
  · have := h0 o.df (o.num ^ 2) o.den2
    linarith
  · have := h1 o.df (o.num ^ 2) o.den2
    linarith

/-- C6 amended, witness: on `dW` the p-value is defined and lies in
`[0, 1]`. -/
theorem C6_pvalue_range_witness :
    welchPair dW 1 2 = some { num := 3, den2 := 1 / 6, df := 6 } ∧
    ∃ q, pvaluePair sfW dW 1 2 = some q ∧ 0 ≤ q ∧ q ≤ 1 := by
  have hw : welchPair dW 1 2 = some { num := 3, den2 := 1 / 6, df := 6 } := by
    norm_num [welchPair, ttest_ind, ratingsOf, album_data, dW, sampleMean, sampleVar]
  refine ⟨hw, C6_pvalue_range sfW dW 1 2 _ hw ?_ ?_⟩
  · intro df n2 d2
    dsimp [sfW]
    split <;> norm_num
  · intro df n2 d2
    dsimp [sfW]
    split <;> norm_num

/-- C10: the metadata lookup takes the *first* row matching the album id
(`head?` of the filter equals `find?`), and when no row matches, the
resulting `IndexError` is not caught by the selection resolver's
`except KeyError` guard: the run aborts with `IndexError` and without the
retry message. -/
theorem C10_metadata_lookup (sf : ℚ → ℚ → ℚ → ℚ) (d : AppData) (i j : Int)
    (n1 n2 : String) :
    (load_albums_metadata d i = d.albums.find? fun r => decide (r.album_id = i)) ∧
    (mapping_album_id d n1 = some i → mapping_album_id d n2 = some j →
      load_albums_metadata d i = none →
      runScript sf d n1 n2 = (false, Except.error RunError.indexError)) := by
  refine ⟨head?_filter _ _, fun h1 h2 h3 => ?_⟩
  cases hb : load_albums_metadata d j with
  | none => simp [runScript, h1, h2, h3, hb]
  | some m => simp [runScript, h1, h2, h3, hb]

/-- C10 witness: on `dC10` the name "C - Z" resolves to album 3, which
has no metadata row, and the run aborts with `IndexError`, no retry
message; moreover album 1's duplicated metadata id resolves to its first
row. -/
theorem C10_metadata_lookup_witness :
    mapping_album_id dC10 "C - Z" = some 3 ∧
    mapping_album_id dC10 "A - X" = some 1 ∧
    load_albums_metadata dC10 3 = none ∧
    (load_albums_metadata dC10 3 =
      dC10.albums.find? fun r => decide (r.album_id = 3)) ∧
    runScript sfW dC10 "C - Z" "A - X" = (false, Except.error RunError.indexError) := by
  refine ⟨by decide, by decide, by decide,
    (C10_metadata_lookup sfW dC10 3 1 "C - Z" "A - X").1,
    (C10_metadata_lookup sfW dC10 3 1 "C - Z" "A - X").2 (by decide) (by decide) (by decide)⟩

theorem lookupKey_nil {α : Type} (k : GKey) :
    lookupKey k ([] : List (GKey × α)) = none := rfl

theorem lookupKey_cons {α : Type} (k : GKey) (p : GKey × α) (l : List (GKey × α)) :
    lookupKey k (p :: l) = if p.1 = k then some p.2 else lookupKey k l := by
  by_cases h : p.1 = k <;> simp [lookupKey, List.find?_cons, h]

theorem lookupKey_upsert_ne (k q : GKey) (r : ℚ) (l : List (GKey × ℚ × Nat))
    (h : k ≠ q) : lookupKey q (upsert k r l) = lookupKey q l := by
  induction l with
  | nil => simp [upsert, lookupKey_cons, lookupKey_nil, h]
  | cons hd tl ih =>
      obtain ⟨k', s, c⟩ := hd
      by_cases hk : k' = k
      · subst hk
        simp [upsert, lookupKey_cons, h]
      · simp [upsert, hk, lookupKey_cons, ih]

theorem lookupKey_upsert_self (k : GKey) (r : ℚ) (l : List (GKey × ℚ × Nat)) :
    lookupKey k (upsert k r l) =
      some (((lookupKey k l).getD (0, 0)).1 + r,
        ((lookupKey k l).getD (0, 0)).2 + 1) := by
  induction l with
  | nil => simp [upsert, lookupKey_cons, lookupKey_nil]
  | cons hd tl ih =>
      obtain ⟨k', s, c⟩ := hd
      by_cases hk : k' = k
      · subst hk
        simp [upsert, lookupKey_cons]
      · simp [upsert, hk, lookupKey_cons, ih]

theorem groupAgg_loop_found (k : GKey) (es : List RatingEvent) :
    ∀ (acc : List (GKey × ℚ × Nat)) (s : ℚ) (c : Nat),
      lookupKey k acc = some (s, c) →
      lookupKey k (es.foldl (fun a e => upsert (keyOf e) e.rating a) acc) =
        some (s + (sumCount k es).1, c + (sumCount k es).2) := by
  induction es with
  | nil =>
      intro acc s c h
      simp [sumCount, h]
  | cons e es ih =>
      intro acc s c h
      simp only [List.foldl_cons]
      by_cases hk : keyOf e = k
      · subst hk
        have h2 := lookupKey_upsert_self (keyOf e) e.rating acc
        rw [h] at h2
        simp only [Option.getD_some] at h2
        rw [ih _ _ _ h2]
        have hfil : (e :: es).filter (fun x => decide (keyOf x = keyOf e)) =
            e :: es.filter (fun x => decide (keyOf x = keyOf e)) := by
          simp [List.filter_cons]
        simp only [sumCount, hfil, List.map_cons, List.sum_cons, List.length_cons,
          Option.some.injEq, Prod.mk.injEq]
        exact ⟨by ring, by omega⟩
      · have h2 : lookupKey k (upsert (keyOf e) e.rating acc) = some (s, c) := by
          rw [lookupKey_upsert_ne _ _ _ _ hk, h]
        rw [ih _ _ _ h2]
        simp [sumCount, List.filter_cons, hk]

theorem groupAgg_loop_none (k : GKey) (es : List RatingEvent) :
    ∀ acc : List (GKey × ℚ × Nat), lookupKey k acc = none →
      lookupKey k (es.foldl (fun a e => upsert (keyOf e) e.rating a) acc) =
        if (es.filter fun e => decide (keyOf e = k)) = [] then none
        else some (sumCount k es) := by
  induction es with
  | nil =>
      intro acc h
      simpa using h
  | cons e es ih =>
      intro acc h
      simp only [List.foldl_cons]
      by_cases hk : keyOf e = k
      · subst hk
        have h2 := lookupKey_upsert_self (keyOf e) e.rating acc
        rw [h] at h2
        simp only [Option.getD_none, zero_add] at h2
        rw [groupAgg_loop_found _ es _ _ _ h2]
        have hfil : (e :: es).filter (fun x => decide (keyOf x = keyOf e)) =
            e :: es.filter (fun x => decide (keyOf x = keyOf e)) := by
          simp [List.filter_cons]
        rw [hfil, if_neg (by simp)]
        simp only [sumCount, hfil, List.map_cons, List.sum_cons, List.length_cons,
          Option.some.injEq, Prod.mk.injEq]
        exact ⟨by ring_nf, by omega⟩
      · have h2 : lookupKey k (upsert (keyOf e) e.rating acc) = none := by
          rw [lookupKey_upsert_ne _ _ _ _ hk, h]
        rw [ih _ h2]
        simp [sumCount, List.filter_cons, hk]

theorem lookupKey_map_div (k : GKey) (l : List (GKey × ℚ × Nat)) :
    lookupKey k (l.map fun x => (x.1, x.2.1 / (x.2.2 : ℚ))) =
      (lookupKey k l).map fun sc => sc.1 / (sc.2 : ℚ) := by
  induction l with
  | nil => rfl
  | cons x tl ih =>
      by_cases h : x.1 = k <;>
        simp [List.map_cons, lookupKey_cons, h, ih]

/-- C8: the time-series chart data groups the combined rating events of
the two selected albums by `(date portion, album_id)` and takes the mean
rating within each group: a key is present exactly when some combined
event carries it, and its value is the sum of the matching ratings divided
by their count. -/
theorem C8_mean_per_day (d : AppData) (i j : Int) (day aid : Int) :
    lookupKey (day, aid) (mean_over_time (combined_data d i j)) =
      (if ((combined_data d i j).filter fun e =>
            decide (e.day = day ∧ e.album_id = aid)) = [] then none
       else some ((((combined_data d i j).filter fun e =>
              decide (e.day = day ∧ e.album_id = aid)).map (·.rating)).sum /
            ((((combined_data d i j).filter fun e =>
              decide (e.day = day ∧ e.album_id = aid)).length : ℚ)))) := by
  have hpred : (fun e : RatingEvent => decide (e.day = day ∧ e.album_id = aid)) =
      fun e => decide (keyOf e = (day, aid)) := by
    funext e
    refine decide_eq_decide.mpr ?_
    simp [keyOf, Prod.ext_iff]
  rw [hpred, mean_over_time, lookupKey_map_div, groupAgg,
    groupAgg_loop_none (day, aid) (combined_data d i j) [] rfl]
  by_cases hf : ((combined_data d i j).filter fun e => decide (keyOf e = (day, aid))) = []
  · rw [if_pos hf, if_pos hf]
    rfl
  · rw [if_neg hf, if_neg hf]
    rfl

theorem load_albums_metadata_id (d : AppData) (i : Int) (m : MetaRow)
    (h : load_albums_metadata d i = some m) : m.album_id = i := by
  rw [load_albums_metadata, head?_filter] at h
  simpa using List.find?_some h

theorem for_each_trace_total (nm : Int → Option String) (ts : List RawTrace)
    (h : ∀ t ∈ ts, (nm t.name).isSome) :
    ∃ out, for_each_trace nm ts = some out ∧
      List.Forall₂ (relabeled nm) ts out := by
  induction ts with
  | nil => exact ⟨[], rfl, List.Forall₂.nil⟩
  | cons t ts ih =>
      obtain ⟨n, hn⟩ := Option.isSome_iff_exists.mp (h t (List.mem_cons_self t ts))
      obtain ⟨out, ho, hf⟩ := ih fun x hx => h x (List.mem_cons_of_mem _ hx)
      refine ⟨⟨n, n, str_replace t.hovertemplate (toString t.name) n⟩ :: out, ?_, ?_⟩
      · rw [for_each_trace] at ho ⊢
        rw [List.mapM_cons, ho]
        simp [relabelTrace, hn]
      · exact List.Forall₂.cons ⟨hn, rfl, rfl⟩ hf

theorem combined_ids (d : AppData) (i j : Int) (e : RatingEvent)
    (h : e ∈ combined_data d i j) : e.album_id = i ∨ e.album_id = j := by
  rw [combined_data] at h
  rcases List.mem_append.mp h with h | h
  · exact Or.inl (by simpa using (List.mem_filter.mp h).2)
  · exact Or.inr (by simpa using (List.mem_filter.mp h).2)

theorem hist_trace_names (d : AppData) (i j : Int) (t : RawTrace)
    (h : t ∈ histogram_fig (combined_data d i j)) : t.name = i ∨ t.name = j := by
  rw [histogram_fig] at h
  obtain ⟨x, hx, rfl⟩ := List.mem_map.mp h
  rw [distinctAlbumIds, List.mem_dedup] at hx
  obtain ⟨e, he, rfl⟩ := List.mem_map.mp hx
  exact combined_ids d i j e he

theorem keys_upsert (k : GKey) (r : ℚ) (l : List (GKey × ℚ × Nat)) (x : GKey)
    (h : x ∈ (upsert k r l).map (·.1)) : x = k ∨ x ∈ l.map (·.1) := by
  induction l with
  | nil =>
      rw [show upsert k r [] = [(k, r, 1)] from rfl, List.map_cons, List.map_nil] at h
      rcases List.mem_cons.mp h with h | h
      · exact Or.inl h
      · exact absurd h (List.not_mem_nil x)
  | cons hd tl ih =>
      obtain ⟨k', s, c⟩ := hd
      rw [List.map_cons]
      rw [show upsert k r ((k', s, c) :: tl) =
          if k' = k then (k', s + r, c + 1) :: tl else (k', s, c) :: upsert k r tl
        from rfl] at h
      by_cases hk : k' = k
      · rw [if_pos hk, List.map_cons] at h
        rcases List.mem_cons.mp h with h | h
        · exact Or.inl (h.trans hk)
        · exact Or.inr (List.mem_cons_of_mem _ h)
      · rw [if_neg hk, List.map_cons] at h
        rcases List.mem_cons.mp h with h | h
        · exact Or.inr (List.mem_cons.mpr (Or.inl h))
        · rcases ih h with h | h
          · exact Or.inl h
          · exact Or.inr (List.mem_cons_of_mem _ h)

theorem keys_groupAgg (k : GKey) (es : List RatingEvent) :
    ∀ acc : List (GKey × ℚ × Nat),
      k ∈ (es.foldl (fun a e => upsert (keyOf e) e.rating a) acc).map (·.1) →
      k ∈ acc.map (·.1) ∨ ∃ e ∈ es, keyOf e = k := by
  induction es with
  | nil =>
      intro acc h
      exact Or.inl h
  | cons e es ih =>
      intro acc h
      rw [List.foldl_cons] at h
      rcases ih _ h with h | h
      · rcases keys_upsert _ _ _ _ h with h | h
        · exact Or.inr ⟨e, List.mem_cons_self e es, h.symm⟩
        · exact Or.inl h
      · obtain ⟨x, hx, hk⟩ := h
        exact Or.inr ⟨x, List.mem_cons_of_mem _ hx, hk⟩

theorem line_trace_names (d : AppData) (i j : Int) (t : RawTrace)
    (h : t ∈ mean_over_time_fig (combined_data d i j)) : t.name = i ∨ t.name = j := by
  rw [mean_over_time_fig] at h
  obtain ⟨x, hx, rfl⟩ := List.mem_map.mp h
  rw [distinctAlbumIds, List.mem_dedup] at hx
  obtain ⟨row, hrow, hxr⟩ := List.mem_map.mp hx
  rw [mean_over_time] at hrow
  obtain ⟨g, hg, hgr⟩ := List.mem_map.mp hrow
  have hk : g.1 ∈ (groupAgg (combined_data d i j)).map (·.1) :=
    List.mem_map_of_mem _ hg
  rw [groupAgg] at hk
  rcases keys_groupAgg _ _ _ hk with h0 | h0
  · simp at h0
  · obtain ⟨e, he, hke⟩ := h0
    have hx2 : e.album_id = x := by
      have h1 : g.1.2 = e.album_id := by rw [← hke, keyOf]
      have h2 : row.1 = g.1 := by rw [← hgr]
      rw [← hxr, h2, h1]
    show x = i ∨ x = j
    rw [← hx2]
    exact combined_ids d i j e he

theorem name_mapping_found (m1 m2 : MetaRow) (x : Int)
    (h : x = m1.album_id ∨ x = m2.album_id) :
    (name_mapping m1 m2 x).isSome := by
  by_cases h2 : x = m2.album_id
  · simp [name_mapping, h2]
  · rcases h with h | h
    · subst h
      simp [name_mapping, h2]
    · exact absurd h h2

/-- C9: for the two figures built from the combined data of the two
selected albums, relabelling succeeds on every trace (no `KeyError`: every
series id is one of the two selected ids, which are the keys of
`name_mapping`), and each rendered trace carries the album's display name
as its series name and legend group and has every occurrence of the raw id
inside its hover text replaced by the display name. -/
theorem C9_series_relabeling (d : AppData) (i j : Int) (m1 m2 : MetaRow)
    (h1 : load_albums_metadata d i = some m1)
    (h2 : load_albums_metadata d j = some m2) :
    (∃ out, for_each_trace (name_mapping m1 m2)
        (histogram_fig (combined_data d i j)) = some out ∧
      List.Forall₂ (relabeled (name_mapping m1 m2))
        (histogram_fig (combined_data d i j)) out) ∧
    (∃ out, for_each_trace (name_mapping m1 m2)
        (mean_over_time_fig (combined_data d i j)) = some out ∧
      List.Forall₂ (relabeled (name_mapping m1 m2))
        (mean_over_time_fig (combined_data d i j)) out) := by
  have hi := load_albums_metadata_id d i m1 h1
  have hj := load_albums_metadata_id d j m2 h2
  constructor
  · refine for_each_trace_total _ _ fun t ht => name_mapping_found m1 m2 t.name ?_
    rcases hist_trace_names d i j t ht with h | h
    · exact Or.inl (by rw [h, hi])
    · exact Or.inr (by rw [h, hj])
  · refine for_each_trace_total _ _ fun t ht => name_mapping_found m1 m2 t.name ?_
    rcases line_trace_names d i j t ht with h | h
    · exact Or.inl (by rw [h, hi])
    · exact Or.inr (by rw [h, hj])

/-- C9 witness: on `dW`, both figures relabel successfully and every
trace satisfies the relabelling property. -/
theorem C9_series_relabeling_witness :
    load_albums_metadata dW 1 = some mW1 ∧
    load_albums_metadata dW 2 = some mW2 ∧
    ((∃ out, for_each_trace (name_mapping mW1 mW2)
        (histogram_fig (combined_data dW 1 2)) = some out ∧
      List.Forall₂ (relabeled (name_mapping mW1 mW2))
        (histogram_fig (combined_data dW 1 2)) out) ∧
    (∃ out, for_each_trace (name_mapping mW1 mW2)
        (mean_over_time_fig (combined_data dW 1 2)) = some out ∧
      List.Forall₂ (relabeled (name_mapping mW1 mW2))
        (mean_over_time_fig (combined_data dW 1 2)) out)) :=
  ⟨by decide, by decide,
    C9_series_relabeling dW 1 2 mW1 mW2 (by decide) (by decide)⟩

end AlbumBattle
